import Mathlib

/-!
Verification of the k8s-log-analyzer core pipeline against its
natural-language specification.

The JavaScript sources are shallowly embedded: pure functions become Lean
functions, the per-line streaming loops become folds over a list of
pre-lexed lines, JS numbers that only ever hold integral millisecond /
count values become `Int` / `Nat`, JS `null` becomes `Option.none`, and
fallible parses return `Option`.  JS regular-expression tests, which the
claims never depend on in detail, are embedded as `String → Bool`
predicates that are universally quantified in the theorems (so every
statement holds for every possible regex semantics).  JS object maps keyed
by strings become `String → Nat` counting functions or association lists
with the same last/first-wins behaviour as the source.

Source: src/lib (parsers/error-log-parser.js, parsers/parser-utils.js,
utils/time-utils.js, analyzers/error-classifier.js,
analyzers/issue-detector.js) and the metrics / db-debug modules shipped
alongside them.
-/

/-- Numeric coercion JS applies to a nullable timestamp: a `Date` compares
as its epoch-milliseconds value and `null` coerces to `0`
(`new Date(null).getTime() === 0`, `null < d ⇔ 0 < +d`). -/
def jsNum (t : Option Int) : Int := t.getD 0

/-- JS string interpolation of a nullable value: `null` prints as "null". -/
def jsStrOfOpt : Option String → String
  | some s => s
  | none => "null"

/-- Decision procedure for `pat` being a prefix of `s` (on character lists). -/
def startsWithChars : List Char → List Char → Bool
  | [], _ => true
  | _ :: _, [] => false
  | a :: pat, b :: s => a == b && startsWithChars pat s

/-- Decision procedure for `pat` occurring somewhere inside `s`; used to
embed JS regex tests that are plain alternations of literal substrings. -/
def containsChars : List Char → List Char → Bool
  | pat, [] => pat.isEmpty
  | pat, c :: rest => startsWithChars pat (c :: rest) || containsChars pat rest

/-- Case-sensitive substring test on strings (callers lower-case first,
mirroring `title.toLowerCase()` followed by an `/i` regex of lower-case
literals in the source). -/
def strContains (s pat : String) : Bool := containsChars pat.toList s.toList

/-- True when any of the literal alternatives occurs in `s`; embeds a JS
`/lit1|lit2|…/.test(s)` regex of plain literals. -/
def hasAny (s : String) (pats : List String) : Bool := pats.any (strContains s)

/-! ## parser-utils.js -/

/-- Embedding of `extractPodInfo`/`extractDeploymentName`
(src/lib/parsers/parser-utils.js:44-57): split the pod name on `-`; with
fewer than 3 parts the deployment is the pod name, otherwise the parts
minus the trailing replica-set and pod hashes, re-joined with `-`. -/
def extractDeploymentName (podName : String) : String :=
  if podName = "" then podName
  else
    let parts := podName.splitOn "-"
    if parts.length < 3 then podName
    else String.intercalate "-" (parts.dropLast.dropLast)

/-! ## The classifier (src/lib/parsers/error-log-parser.js:9-48)

Each entry of `ERROR_PATTERNS` is a `(name, regex, severity)` triple; the
regex is embedded as an opaque `String → Bool` test supplied through the
`tests` argument (indexed by category name), so all classifier theorems
hold for every regex semantics.  The names, their order and the fixed
severity weights are taken verbatim from the source table. -/

structure ErrorPattern where
  name : String
  test : String → Bool
  severity : Nat

/-- The fixed, ordered error taxonomy of error-log-parser.js:9-33. -/
def ERROR_PATTERNS (tests : String → String → Bool) : List ErrorPattern :=
  [ ⟨"redis_connection", tests "redis_connection", 5⟩,
    ⟨"redis_error", tests "redis_error", 4⟩,
    ⟨"rasa_timeout", tests "rasa_timeout", 5⟩,
    ⟨"mysql_warning", tests "mysql_warning", 3⟩,
    ⟨"mysql_error", tests "mysql_error", 5⟩,
    ⟨"nlu_fallback", tests "nlu_fallback", 3⟩,
    ⟨"tensorflow_warning", tests "tensorflow_warning", 2⟩,
    ⟨"oom_killed", tests "oom_killed", 5⟩,
    ⟨"http_5xx", tests "http_5xx", 4⟩,
    ⟨"http_4xx", tests "http_4xx", 2⟩,
    ⟨"connection_reset", tests "connection_reset", 4⟩,
    ⟨"dns_error", tests "dns_error", 4⟩,
    ⟨"timeout_generic", tests "timeout_generic", 4⟩,
    ⟨"crash_restart", tests "crash_restart", 5⟩,
    ⟨"memory_pressure", tests "memory_pressure", 5⟩,
    ⟨"disk_pressure", tests "disk_pressure", 5⟩,
    ⟨"auth_error", tests "auth_error", 3⟩,
    ⟨"rate_limit", tests "rate_limit", 3⟩,
    ⟨"slow_query", tests "slow_query", 3⟩,
    ⟨"lock_failure", tests "lock_failure", 4⟩,
    ⟨"kafka_error", tests "kafka_error", 4⟩,
    ⟨"unhandled_exception", tests "unhandled_exception", 5⟩,
    ⟨"stack_trace", tests "stack_trace", 3⟩ ]

/-- Embedding of `classifyLine` (error-log-parser.js:39-48): strip ANSI
escapes (`stripA` embeds `stripAnsi`), accumulate the names of the table
patterns whose regex matches, fall back to `['uncategorized']` when the
accumulator stays empty.  The loop `categories.push(...)` becomes a fold
that appends on a match. -/
def classifyLine (pats : List ErrorPattern) (stripA : String → String)
    (message : String) : List String :=
  let clean := stripA message
  let categories := pats.foldl (fun acc p => if p.test clean then acc ++ [p.name] else acc) []
  if categories.length > 0 then categories else ["uncategorized"]

theorem classifyLine_foldl (pats : List ErrorPattern) (clean : String) :
    ∀ acc : List String,
      pats.foldl (fun acc p => if p.test clean then acc ++ [p.name] else acc) acc =
        acc ++ (pats.filter (fun p => p.test clean)).map (·.name) := by
  induction pats with
  | nil => simp
  | cons p rest ih =>
    intro acc
    by_cases h : p.test clean
    · simp [List.foldl_cons, h, ih]
    · simp [List.foldl_cons, h, ih]

/-- The claim C3's theorem, split off as a reusable characterization:
`classifyLine` over any pattern table returns exactly the ordered
name-subset of the table whose test matches the stripped message, with the
`['uncategorized']` fallback, and is consequently never empty. -/
theorem classifyLine_eq (pats : List ErrorPattern) (stripA : String → String)
    (message : String) :
    classifyLine pats stripA message =
      (let matched := (pats.filter (fun p => p.test (stripA message))).map (·.name)
       if matched.isEmpty then ["uncategorized"] else matched) ∧
    classifyLine pats stripA message ≠ [] := by
  have h := classifyLine_foldl pats (stripA message) []
  simp only [List.nil_append] at h
  simp only [classifyLine, h]
  generalize (pats.filter (fun p => p.test (stripA message))).map (·.name) = m
  cases m with
  | nil => simp
  | cons a t => simp

/-- Claim C3: for every regex semantics `tests`, every ANSI-stripping
function and every message, `classifyLine` over the fixed `ERROR_PATTERNS`
table returns exactly the ordered subset of table category names whose
pattern matches the stripped message, returns `['uncategorized']` when no
pattern matches, and is never empty.  (Determinism on identical input is
immediate: the embedding, like the source, is a pure function of the
message.) -/
theorem classifyLine_spec (tests : String → String → Bool)
    (stripA : String → String) (message : String) :
    classifyLine (ERROR_PATTERNS tests) stripA message =
      (let matched := ((ERROR_PATTERNS tests).filter
          (fun p => p.test (stripA message))).map (·.name)
       if matched.isEmpty then ["uncategorized"] else matched) ∧
    classifyLine (ERROR_PATTERNS tests) stripA message ≠ [] :=
  classifyLine_eq (ERROR_PATTERNS tests) stripA message

/-! ## The error-log stream parser (error-log-parser.js:58-151)

A raw input line is represented by the outcome of the lexical tests the
source applies to it: `record pod timestamp rawMessage` stands for a line
matching `POD_LINE_RE` (the ISO-timestamp capture group is carried as its
`parseIsoTimestamp` result, epoch milliseconds or `none` on parse
failure), and `plain text` for a non-matching line.  The remaining regex
primitives (`stripAnsi`, the level keywords, `/^\s+at\s/`, the bot-id
extractors) are bundled in `RegexPrims` and universally quantified. -/

inductive SrcLine where
  | plain (text : String)
  | record (pod : String) (timestamp : Option Int) (rawMessage : String)

/-- The regex primitives of parser-utils.js / error-log-parser.js that the
parser claims never depend on in detail. -/
structure RegexPrims where
  stripAnsi : String → String
  patTest : String → String → Bool
  testError : String → Bool
  testWarn : String → Bool
  testDebug : String → Bool
  testAt : String → Bool
  extractBotId : String → Option String

/-- Embedding of `detectLevel` (error-log-parser.js:58-64): first match of
the error / warning / debug keyword regexes wins, else `info`. -/
def detectLevel (p : RegexPrims) (message : String) : String :=
  if p.testError message then "error"
  else if p.testWarn message then "warning"
  else if p.testDebug message then "debug"
  else "info"

structure LogEvent where
  timestamp : Option Int
  pod : String
  deployment : String
  level : String
  message : String
  categories : List String
  botId : Option String
  stackTrace : Option String
deriving DecidableEq

instance : Inhabited LogEvent := ⟨⟨none, "", "", "", "", [], none, none⟩⟩

/-- Per-file statistics accumulated by `parseErrorLog`.  The JS object
maps `byPod` / `byDeployment` / `byCategory` are embedded as counting
functions `String → Nat`. -/
structure ErrorLogStats where
  totalLines : Nat
  errorCount : Nat
  warningCount : Nat
  byPod : String → Nat
  byDeployment : String → Nat
  byCategory : String → Nat
  firstTimestamp : Option Int
  lastTimestamp : Option Int

def initialStats : ErrorLogStats :=
  ⟨0, 0, 0, fun _ => 0, fun _ => 0, fun _ => 0, none, none⟩

/-- Increment of one key of a JS counting map
(`m[k] = (m[k] || 0) + 1`). -/
def bump (f : String → Nat) (k : String) : String → Nat :=
  fun x => if x = k then f x + 1 else f x

structure ParseOptions where
  startTime : Option Int
  endTime : Option Int

/-- Embedding of `isInTimeRange` (time-utils.js:64-69).  A `null`
timestamp coerces to `0` (`new Date(null).getTime() === 0`). -/
def isInTimeRange (timestamp startTime endTime : Option Int) : Bool :=
  let ts := jsNum timestamp
  if startTime.isSome && decide (ts < jsNum startTime) then false
  else if endTime.isSome && decide (jsNum endTime < ts) then false
  else true

structure ParseState where
  events : List LogEvent
  stats : ErrorLogStats
  stackBuffer : Option LogEvent

/-- One iteration of the `for await (const line of rl)` loop of
`parseErrorLog` (error-log-parser.js:85-146).  Note the two JS
comparisons `timestamp < stats.firstTimestamp` and
`timestamp > stats.lastTimestamp` coerce a `null` operand to `0`
(`jsNum`), and `!stats.firstTimestamp` is true exactly when the field is
still `null` (any `Date` object is truthy). -/
def processLine (p : RegexPrims) (opts : ParseOptions)
    (st : ParseState) (line : SrcLine) : ParseState :=
  let stats0 := { st.stats with totalLines := st.stats.totalLines + 1 }
  match line with
  | .plain text =>
    match st.stackBuffer with
    | some buf =>
      if p.testAt text then
        let buf' := { buf with
          stackTrace := some ((buf.stackTrace.getD "") ++ "\n" ++ text.trim) }
        { st with stats := stats0, stackBuffer := some buf' }
      else { st with stats := stats0 }
    | none => { st with stats := stats0 }
  | .record pod timestamp rawMessage =>
    let events :=
      match st.stackBuffer with
      | some buf => st.events ++ [buf]
      | none => st.events
    if (opts.startTime.isSome || opts.endTime.isSome) &&
        !(isInTimeRange timestamp opts.startTime opts.endTime) then
      ⟨events, stats0, none⟩
    else
      let stats1 :=
        if stats0.firstTimestamp = none ∨ jsNum timestamp < jsNum stats0.firstTimestamp
        then { stats0 with firstTimestamp := timestamp } else stats0
      let stats2 :=
        if stats1.lastTimestamp = none ∨ jsNum stats1.lastTimestamp < jsNum timestamp
        then { stats1 with lastTimestamp := timestamp } else stats1
      let message := p.stripAnsi rawMessage
      let level := detectLevel p message
      let categories := classifyLine (ERROR_PATTERNS p.patTest) p.stripAnsi message
      let botId := p.extractBotId message
      let deployment := extractDeploymentName pod
      let stats3 :=
        if level = "error" then { stats2 with errorCount := stats2.errorCount + 1 } else stats2
      let stats4 :=
        if level = "warning" then { stats3 with warningCount := stats3.warningCount + 1 } else stats3
      let stats5 := { stats4 with
        byPod := bump stats4.byPod pod,
        byDeployment := bump stats4.byDeployment deployment,
        byCategory := categories.foldl bump stats4.byCategory }
      let event : LogEvent :=
        ⟨timestamp, pod, deployment, level, message.take 500, categories, botId, none⟩
      if p.testAt message then ⟨events, stats5, some event⟩
      else ⟨events ++ [event], stats5, none⟩

/-- Embedding of `parseErrorLog` (error-log-parser.js:66-151) over the
pre-lexed line list: fold the loop body, then flush a pending
stack-buffered event at end of file. -/
def parseErrorLog (p : RegexPrims) (opts : ParseOptions)
    (lines : List SrcLine) : List LogEvent × ErrorLogStats :=
  let st := lines.foldl (processLine p opts) ⟨[], initialStats, none⟩
  match st.stackBuffer with
  | some buf => (st.events ++ [buf], st.stats)
  | none => (st.events, st.stats)

theorem processLine_totalLines (p : RegexPrims) (opts : ParseOptions)
    (st : ParseState) (line : SrcLine) :
    (processLine p opts st line).stats.totalLines = st.stats.totalLines + 1 := by
  cases line with
  | plain text =>
    cases h : st.stackBuffer <;> simp [processLine, h] <;> split <;> simp
  | record pod timestamp rawMessage =>
    simp only [processLine]
    repeat' split
    all_goals rfl

theorem processLine_errWarn (p : RegexPrims) (opts : ParseOptions)
    (st : ParseState) (line : SrcLine) :
    (processLine p opts st line).stats.errorCount +
        (processLine p opts st line).stats.warningCount ≤
      st.stats.errorCount + st.stats.warningCount + 1 := by
  cases line with
  | plain text =>
    cases h : st.stackBuffer <;> simp [processLine, h] <;> split <;> simp
  | record pod timestamp rawMessage =>
    have hlevel : ¬ (detectLevel p (p.stripAnsi rawMessage) = "error" ∧
        detectLevel p (p.stripAnsi rawMessage) = "warning") := by
      rintro ⟨h1, h2⟩
      rw [h1] at h2
      exact absurd h2 (by decide)
    simp only [processLine]
    repeat' split
    all_goals simp_all
    all_goals omega

theorem parseErrorLog_fold_invariant (p : RegexPrims) (opts : ParseOptions)
    (lines : List SrcLine) :
    ∀ st : ParseState,
      (lines.foldl (processLine p opts) st).stats.totalLines =
          st.stats.totalLines + lines.length ∧
      (lines.foldl (processLine p opts) st).stats.errorCount +
          (lines.foldl (processLine p opts) st).stats.warningCount ≤
        st.stats.errorCount + st.stats.warningCount + lines.length := by
  induction lines with
  | nil => intro st; simp
  | cons line rest ih =>
    intro st
    have h1 := processLine_totalLines p opts st line
    have h2 := processLine_errWarn p opts st line
    have h3 := ih (processLine p opts st line)
    simp only [List.foldl_cons, List.length_cons]
    constructor
    · omega
    · omega

/-- Claim C7: for every regex semantics, every time filter and every line
list, `parseErrorLog`'s stats count every line read in `totalLines`, and
each line contributes to at most one of `errorCount` / `warningCount`, so
their sum is bounded by `totalLines`. -/
theorem parseErrorLog_stats_totals (p : RegexPrims) (opts : ParseOptions)
    (lines : List SrcLine) :
    (parseErrorLog p opts lines).2.totalLines = lines.length ∧
    (parseErrorLog p opts lines).2.errorCount +
        (parseErrorLog p opts lines).2.warningCount ≤
      (parseErrorLog p opts lines).2.totalLines := by
  have h := parseErrorLog_fold_invariant p opts lines ⟨[], initialStats, none⟩
  simp only [initialStats] at h
  unfold parseErrorLog
  cases hb : (lines.foldl (processLine p opts) ⟨[], initialStats, none⟩).stackBuffer <;>
    simp only [initialStats] at hb ⊢ <;> rw [hb] <;> simp <;> omega

/-! ## Timeline bucketing (time-utils.js:33-47)

`bucketByInterval` keys each event by
`Math.floor(ts / intervalMs) * intervalMs` where
`ts = evt.timestamp instanceof Date ? evt.timestamp.getTime() : new Date(evt.timestamp).getTime()`.
For a `null` timestamp `new Date(null).getTime()` is `0` (not `NaN`), so
the `isNaN(ts)` skip never fires for the parser's events and a
null-timestamp event is keyed at epoch `0`.  `Math.floor` of the real
quotient is `Int.fdiv`.  The JS `Map` keeps insertion order; the final
`Array.from(...).sort((a,b) => a[0]-b[0])` is an ascending stable sort on
the key. -/
def bucketByInterval (events : List LogEvent) (intervalMs : Int) :
    List (Int × List LogEvent) :=
  let buckets := events.foldl
    (fun (acc : List (Int × List LogEvent)) evt =>
      let ts := jsNum evt.timestamp
      let key := Int.fdiv ts intervalMs * intervalMs
      if acc.any (fun b => b.1 = key) then
        acc.map (fun b => if b.1 = key then (b.1, b.2 ++ [evt]) else b)
      else acc ++ [(key, [evt])])
    []
  buckets.mergeSort (fun a b => a.1 ≤ b.1)

/-- The trivially-false / trivially-empty regex primitives; used to
evaluate the embedding on concrete inputs whose lines contain none of the
level / category / stack-trace keywords, where every real regex of the
source also fails to match. -/
def noMatchPrims : RegexPrims :=
  ⟨id, fun _ _ => false, fun _ => false, fun _ => false, fun _ => false,
   fun _ => false, fun _ => none⟩

/-- A minimal event with only a timestamp, as produced by the parser for a
plain unclassified message. -/
def plainEvent (ts : Option Int) : LogEvent :=
  ⟨ts, "pod-abc-123", "pod", "info", "m", ["uncategorized"], none, none⟩

/-- Claim C4 (code bug): a record line whose timestamp string fails to
parse is NOT excluded from first-timestamp tracking nor from timeline
bucketing.  Concretely, for the two record lines
`[pod-abc-123] 2024-01-01T00:00:00Z m` (timestamp 1704067200000) followed
by `[pod-abc-123] 2024-99-99T99:99:99Z m` (matches `POD_LINE_RE`, fails
`Date` parsing, timestamp `null`): the JS comparison
`null < stats.firstTimestamp` coerces `null` to `0`, so the second record
overwrites `stats.firstTimestamp` with `null` — while the claim requires
it to stay at the first record's timestamp.  The count-based statistics do
still include the record (`byPod` reaches 2), and `bucketByInterval`
places the null-timestamp event into an epoch-0 bucket instead of
excluding it (`new Date(null).getTime() === 0`). -/
theorem parseErrorLog_null_timestamp_bug :
    (parseErrorLog noMatchPrims ⟨none, none⟩
        [SrcLine.record "pod-abc-123" (some 1704067200000) "m",
         SrcLine.record "pod-abc-123" none "m"]).2.firstTimestamp = none ∧
    (parseErrorLog noMatchPrims ⟨none, none⟩
        [SrcLine.record "pod-abc-123" (some 1704067200000) "m",
         SrcLine.record "pod-abc-123" none "m"]).2.byPod "pod-abc-123" = 2 ∧
    bucketByInterval [plainEvent none] 300000 = [(0, [plainEvent none])] := by
  refine ⟨by decide, by decide, ?_⟩
  simp [bucketByInterval, jsNum, plainEvent]

/-! ## The event budgeter (error-log-parser.js:153-256)

Phase 1 of `parseAllErrorLogs` (the per-file I/O and the merge of the
per-file stats) is `parseErrorLog` above; the embedding below covers
Phase 2 (lines 200-256): distributing the `MAX_EVENTS` budget over the
per-file event lists, stride-sampling any file whose allocation is below
its event count, and sorting the combined list by
`(a.timestamp || 0) - (b.timestamp || 0)` — a stable ascending sort on the
null-to-zero coerced timestamp, embedded as `mergeSort` on `tsLe`.  The JS
float expressions `Math.floor((leftover[i] / totalLeftover) * remaining)`
and `Math.floor(j * (events.length / budget))` are embedded as the exact
rational floors `leftover * remaining / totalLeftover` and
`j * length / budget` (`Nat` division). -/

def MAX_EVENTS : Nat := 200000

/-- The per-file guaranteed minimum `MIN_PER_FILE`
(error-log-parser.js:212): `Math.min(5000, Math.floor(MAX_EVENTS / n))`. -/
def minPerFile (n : Nat) : Nat := min 5000 (MAX_EVENTS / n)

/-- The two allocation passes of error-log-parser.js:213-231, as a
function of the per-file event counts: first `min(count, MIN_PER_FILE)`
per file, then the remaining budget distributed proportionally to each
file's leftover count. -/
def computeAllocations (counts : List Nat) : List Nat :=
  let mpf := minPerFile counts.length
  let initial := counts.map (fun c => min c mpf)
  let budgetUsed := initial.sum
  let remaining := MAX_EVENTS - budgetUsed
  if 0 < remaining then
    let leftover := counts.map (fun c => c - min c mpf)
    let totalLeftover := leftover.sum
    if 0 < totalLeftover then
      counts.map (fun c =>
        min c mpf + min (c - min c mpf) ((c - min c mpf) * remaining / totalLeftover))
    else initial
  else initial

/-- Uniform stride sampling (error-log-parser.js:237-246): when the budget
covers the list, keep everything, otherwise take
`events[min(floor(j * stride), length - 1)]` for `j < budget`.  The
in-range JS index access is embedded with `getD ... default` (the default
is provably never used). -/
def sampleEvents (events : List LogEvent) (budget : Nat) : List LogEvent :=
  if events.length ≤ budget then events
  else (List.range budget).map (fun j =>
    events.getD (min (j * events.length / budget) (events.length - 1)) default)

/-- Comparator of the final `allEvents.sort` (error-log-parser.js:254). -/
def tsLe (a b : LogEvent) : Bool := decide (jsNum a.timestamp ≤ jsNum b.timestamp)

/-- Embedding of Phase 2 of `parseAllErrorLogs`
(error-log-parser.js:200-256) on the per-file event lists; returns the
combined event list and the `eventsDropped` count. -/
def parseAllErrorLogs (fileEvents : List (List LogEvent)) :
    List LogEvent × Nat :=
  let total := (fileEvents.map List.length).sum
  if total ≤ MAX_EVENTS then
    ((fileEvents.flatten).mergeSort tsLe, 0)
  else
    let allocs := computeAllocations (fileEvents.map List.length)
    let pairs := fileEvents.zip allocs
    let sampled := pairs.map (fun fa => sampleEvents fa.1 (min fa.2 fa.1.length))
    let dropped := (pairs.map (fun fa => fa.1.length - min fa.2 fa.1.length)).sum
    ((sampled.flatten).mergeSort tsLe, dropped)

theorem sum_map_add (l : List α) (f g : α → Nat) :
    (l.map (fun x => f x + g x)).sum = (l.map f).sum + (l.map g).sum := by
  induction l with
  | nil => simp
  | cons a t ih => simp [ih]; omega

theorem sum_map_le (l : List α) (f g : α → Nat) (h : ∀ x ∈ l, f x ≤ g x) :
    (l.map f).sum ≤ (l.map g).sum := by
  induction l with
  | nil => simp
  | cons a t ih =>
    simp only [List.map_cons, List.sum_cons]
    have h1 := h a (List.mem_cons_self a t)
    have h2 := ih (fun x hx => h x (List.mem_cons_of_mem a hx))
    omega

theorem sum_le_length_mul (l : List Nat) (b : Nat) (h : ∀ x ∈ l, x ≤ b) :
    l.sum ≤ l.length * b := by
  induction l with
  | nil => simp
  | cons a t ih =>
    simp only [List.sum_cons, List.length_cons]
    have h1 := h a (List.mem_cons_self a t)
    have h2 := ih (fun x hx => h x (List.mem_cons_of_mem a hx))
    have : (t.length + 1) * b = t.length * b + b := by ring
    omega

theorem div_add_div_le (a b d : Nat) : a / d + b / d ≤ (a + b) / d := by
  rcases Nat.eq_zero_or_pos d with hd | hd
  · simp [hd]
  · rw [Nat.le_div_iff_mul_le hd, Nat.add_mul]
    have ha := Nat.div_mul_le_self a d
    have hb := Nat.div_mul_le_self b d
    omega

theorem sum_map_div_le (l : List α) (f : α → Nat) (d : Nat) :
    (l.map (fun x => f x / d)).sum ≤ (l.map f).sum / d := by
  induction l with
  | nil => simp
  | cons a t ih =>
    simp only [List.map_cons, List.sum_cons]
    calc f a / d + (t.map (fun x => f x / d)).sum
        ≤ f a / d + (t.map f).sum / d := by omega
      _ ≤ (f a + (t.map f).sum) / d := div_add_div_le _ _ _

theorem sum_map_mul (l : List α) (f : α → Nat) (k : Nat) :
    (l.map (fun x => f x * k)).sum = (l.map f).sum * k := by
  induction l with
  | nil => simp
  | cons a t ih => simp [ih]; ring

theorem zip_map_self (l : List α) (g : α → β) :
    l.zip (l.map g) = l.map (fun x => (x, g x)) := by
  induction l with
  | nil => simp
  | cons a t ih => simp [ih]

/-- The sum of the first-pass minimum allocations never exceeds the cap:
each of the `n` files gets at most `min(5000, cap / n)`. -/
theorem sum_initial_le (counts : List Nat) :
    (counts.map (fun c => min c (minPerFile counts.length))).sum ≤ MAX_EVENTS := by
  have h1 : (counts.map (fun c => min c (minPerFile counts.length))).sum ≤
      counts.length * minPerFile counts.length := by
    have := sum_le_length_mul (counts.map (fun c => min c (minPerFile counts.length)))
      (minPerFile counts.length) (by
        intro x hx
        obtain ⟨c, _, rfl⟩ := List.mem_map.mp hx
        exact Nat.min_le_right _ _)
    simpa using this
  have h2 : counts.length * minPerFile counts.length ≤
      counts.length * (MAX_EVENTS / counts.length) :=
    Nat.mul_le_mul_left _ (Nat.min_le_right _ _)
  have h3 : counts.length * (MAX_EVENTS / counts.length) ≤ MAX_EVENTS := by
    rw [Nat.mul_comm]
    exact Nat.div_mul_le_self _ _
  omega

/-- Structure of `computeAllocations`: it maps a single per-count function
over the counts, that function dominates the first-pass minimum
`min(count, MIN_PER_FILE)`, and the allocations sum to at most the cap. -/
theorem computeAllocations_spec (counts : List Nat) :
    ∃ f : Nat → Nat,
      computeAllocations counts = counts.map f ∧
      (∀ c, min c (minPerFile counts.length) ≤ f c) ∧
      (counts.map f).sum ≤ MAX_EVENTS := by
  unfold computeAllocations
  set mpf := minPerFile counts.length with hmpf
  set used := (counts.map (fun c => min c mpf)).sum with hused
  have hle : used ≤ MAX_EVENTS := by rw [hused, hmpf]; exact sum_initial_le counts
  by_cases hrem : 0 < MAX_EVENTS - used
  · set rem := MAX_EVENTS - used with hremdef
    set L := (counts.map (fun c => c - min c mpf)).sum with hL
    by_cases hLpos : 0 < L
    · refine ⟨fun c => min c mpf + min (c - min c mpf) ((c - min c mpf) * rem / L),
        ?_, ?_, ?_⟩
      · simp only [hrem, if_pos, hLpos]
      · intro c; exact Nat.le_add_right _ _
      · rw [sum_map_add]
        have hextra : (counts.map
            (fun c => min (c - min c mpf) ((c - min c mpf) * rem / L))).sum ≤ rem := by
          calc (counts.map (fun c => min (c - min c mpf) ((c - min c mpf) * rem / L))).sum
              ≤ (counts.map (fun c => (c - min c mpf) * rem / L)).sum :=
                sum_map_le _ _ _ (fun c _ => Nat.min_le_right _ _)
            _ ≤ (counts.map (fun c => (c - min c mpf) * rem)).sum / L :=
                sum_map_div_le _ _ _
            _ = L * rem / L := by rw [sum_map_mul, ← hL, Nat.mul_comm]
            _ = rem := Nat.mul_div_cancel_left _ hLpos
        omega
    · refine ⟨fun c => min c mpf, ?_, fun c => Nat.le_refl _, hle⟩
      simp only [hrem, if_pos]
      simp only [hLpos, if_neg, ← hL]
      simp [hLpos]
  · refine ⟨fun c => min c mpf, ?_, fun c => Nat.le_refl _, hle⟩
    simp [hrem]

theorem length_sampleEvents (evs : List LogEvent) (b : Nat) :
    (sampleEvents evs b).length = min evs.length b := by
  unfold sampleEvents
  split
  · omega
  · simp; omega

theorem mem_sampleEvents {x : LogEvent} {evs : List LogEvent} {b : Nat}
    (hx : x ∈ sampleEvents evs b) : x ∈ evs := by
  unfold sampleEvents at hx
  split at hx
  · exact hx
  · rename_i hlen
    obtain ⟨j, hj, rfl⟩ := List.mem_map.mp hx
    have hidx : min (j * evs.length / b) (evs.length - 1) < evs.length := by omega
    rw [List.getD_eq_getElem?_getD, List.getElem?_eq_getElem hidx]
    exact List.getElem_mem _

/-- When a file is actually sampled down, every selected index is at most
`length - 2`: the stride selection `floor(j * length / budget)` for
`j ≤ budget - 1` never reaches the last element. -/
theorem mem_sampleEvents_of_lt {x : LogEvent} {evs : List LogEvent} {b : Nat}
    (hb : b < evs.length) (hx : x ∈ sampleEvents evs b) :
    ∃ i, i + 1 < evs.length ∧ x = evs.getD i default := by
  unfold sampleEvents at hx
  rw [if_neg (by omega)] at hx
  obtain ⟨j, hj, rfl⟩ := List.mem_map.mp hx
  rw [List.mem_range] at hj
  refine ⟨min (j * evs.length / b) (evs.length - 1), ?_, rfl⟩
  have hb1 : 1 ≤ b := by omega
  have hmono : j * evs.length / b ≤ (b - 1) * evs.length / b :=
    Nat.div_le_div_right (Nat.mul_le_mul_right _ (by omega))
  have hkey : (b - 1) * evs.length / b < evs.length - 1 := by
    rw [Nat.div_lt_iff_lt_mul (by omega : 0 < b)]
    have h1 : 1 ≤ b := by omega
    have h2 : 1 ≤ evs.length := by omega
    have hbz : (b : Int) < (evs.length : Int) := by exact_mod_cast hb
    zify [h1, h2]
    nlinarith [hbz]
  have h6 : j * evs.length / b < evs.length - 1 := lt_of_le_of_lt hmono hkey
  have h7 : min (j * evs.length / b) (evs.length - 1) ≤ j * evs.length / b :=
    Nat.min_le_left _ _
  omega

theorem countP_sampleEvents_all (p : LogEvent → Bool) (evs : List LogEvent)
    (b : Nat) (h : ∀ y ∈ evs, p y) :
    (sampleEvents evs b).countP p = min evs.length b := by
  rw [← length_sampleEvents]
  exact List.countP_eq_length.mpr (fun x hx => h x (mem_sampleEvents hx))

theorem countP_sampleEvents_none (p : LogEvent → Bool) (evs : List LogEvent)
    (b : Nat) (h : ∀ y ∈ evs, ¬ p y) :
    (sampleEvents evs b).countP p = 0 :=
  List.countP_eq_zero.mpr (fun x hx => h x (mem_sampleEvents hx))

theorem tsLe_trans : ∀ (a b c : LogEvent), tsLe a b → tsLe b c → tsLe a c := by
  intro a b c hab hbc
  simp only [tsLe, decide_eq_true_eq] at *
  omega

theorem tsLe_total : ∀ (a b : LogEvent), tsLe a b || tsLe b a := by
  intro a b
  simp only [tsLe]
  rcases Int.le_total (jsNum a.timestamp) (jsNum b.timestamp) with h | h <;> simp [h]

theorem pairwise_mergeSort_ts (l : List LogEvent) :
    List.Pairwise (fun a b => jsNum a.timestamp ≤ jsNum b.timestamp)
      (l.mergeSort tsLe) := by
  have h := List.sorted_mergeSort tsLe_trans tsLe_total l
  exact h.imp (fun hab => by simpa [tsLe, decide_eq_true_eq] using hab)

/-- Claim C1 (amended): for any per-file event lists whose events are
tagged by file (`evs` is the file at some position, all its events carry
`name`, no other file's events do), the combined output of the budgeter
has length at most `MAX_EVENTS`, is sorted ascending on the null-coerced
timestamp, and the designated file contributes at least
`min(count, MIN_PER_FILE)` events, where
`MIN_PER_FILE = min(5000, floor(MAX_EVENTS / fileCount))` — the 5000 cap
is what the original claim omits. -/
theorem parseAllErrorLogs_budget
    (pre post : List (List LogEvent)) (evs : List LogEvent) (name : String)
    (hin : ∀ e ∈ evs, e.pod = name)
    (hout : ∀ l ∈ pre ++ post, ∀ e ∈ l, e.pod ≠ name) :
    (parseAllErrorLogs (pre ++ evs :: post)).1.length ≤ MAX_EVENTS ∧
    List.Pairwise (fun a b => jsNum a.timestamp ≤ jsNum b.timestamp)
      (parseAllErrorLogs (pre ++ evs :: post)).1 ∧
    min evs.length (minPerFile (pre ++ evs :: post).length) ≤
      (parseAllErrorLogs (pre ++ evs :: post)).1.countP (fun e => e.pod == name) := by
  set files := pre ++ evs :: post with hfiles
  have hinb : ∀ e ∈ evs, (fun e => e.pod == name) e = true := by
    intro e he; simpa using hin e he
  have houtb : ∀ l ∈ pre ++ post, ∀ e ∈ l, ¬ ((fun e => e.pod == name) e = true) := by
    intro l hl e he; simpa using hout l hl e he
  simp only [parseAllErrorLogs]
  split
  · rename_i htotal
    refine ⟨?_, pairwise_mergeSort_ts _, ?_⟩
    · rw [List.length_mergeSort, List.length_flatten]
      exact htotal
    · rw [List.Perm.countP_eq _ (List.mergeSort_perm _ _)]
      rw [hfiles, List.flatten_append, List.flatten_cons, List.countP_append,
        List.countP_append]
      have hevs : evs.countP (fun e => e.pod == name) = evs.length :=
        List.countP_eq_length.mpr hinb
      have : min evs.length (minPerFile files.length) ≤ evs.length :=
        Nat.min_le_left _ _
      rw [hfiles] at this
      omega
  · rename_i htotal
    obtain ⟨f, hfeq, hflb, hfsum⟩ := computeAllocations_spec (files.map List.length)
    rw [hfeq, List.map_map, zip_map_self]
    have hform : (files.map (fun x => (x, (f ∘ List.length) x))).map
        (fun fa => sampleEvents fa.1 (min fa.2 fa.1.length)) =
        files.map (fun l => sampleEvents l (min (f l.length) l.length)) := by
      rw [List.map_map]
      rfl
    rw [hform]
    refine ⟨?_, pairwise_mergeSort_ts _, ?_⟩
    · rw [List.length_mergeSort, List.length_flatten, List.map_map]
      calc (files.map (List.length ∘ fun l =>
              sampleEvents l (min (f l.length) l.length))).sum
          = (files.map (fun l => min (f l.length) l.length)).sum := by
            apply congrArg
            apply List.map_congr_left
            intro l _
            simp only [Function.comp_apply, length_sampleEvents]
            omega
        _ ≤ (files.map (fun l => f l.length)).sum :=
            sum_map_le _ _ _ (fun l _ => Nat.min_le_left _ _)
        _ = ((files.map List.length).map f).sum := by rw [List.map_map]; rfl
        _ ≤ MAX_EVENTS := hfsum
    · rw [List.Perm.countP_eq _ (List.mergeSort_perm _ _)]
      rw [hfiles, List.map_append, List.map_cons, List.flatten_append,
        List.flatten_cons, List.countP_append, List.countP_append]
      have hevs : (sampleEvents evs (min (f evs.length) evs.length)).countP
          (fun e => e.pod == name) = min evs.length (min (f evs.length) evs.length) :=
        countP_sampleEvents_all _ _ _ hinb
      have hbound : min evs.length (minPerFile files.length) ≤
          min evs.length (min (f evs.length) evs.length) := by
        have := hflb evs.length
        have hlenfiles : (files.map List.length).length = files.length :=
          List.length_map _ _
        rw [hlenfiles] at this
        omega
      rw [hfiles] at hbound
      omega

/-- A synthetic file of `n` events, all tagged with pod `pod` and
timestamped by their index — the shape `parseErrorLog` produces for a file
of `n` plain record lines with millisecond-spaced timestamps. -/
def mkEvents (pod : String) (n : Nat) : List LogEvent :=
  (List.range n).map
    (fun (i : Nat) =>
      ⟨some (Int.ofNat i), pod, "", "info", "", ["uncategorized"], none, none⟩)

theorem length_mkEvents (pod : String) (n : Nat) :
    (mkEvents pod n).length = n := by
  rw [mkEvents, List.length_map, List.length_range]

theorem pod_mkEvents {pod : String} {n : Nat} :
    ∀ e ∈ mkEvents pod n, e.pod = pod := by
  intro e he
  simp only [mkEvents, List.mem_map, List.mem_range] at he
  obtain ⟨i, _, rfl⟩ := he
  rfl

theorem getD_mkEvents {pod : String} {n i : Nat} (h : i < n) :
    (mkEvents pod n).getD i default =
      ⟨some (Int.ofNat i), pod, "", "info", "", ["uncategorized"], none, none⟩ := by
  rw [List.getD_eq_getElem?_getD,
    List.getElem?_eq_getElem (by rw [length_mkEvents]; exact h)]
  simp only [mkEvents, List.getElem_map, List.getElem_range, Option.getD_some]

/-- Witness for `parseAllErrorLogs_budget` at a concrete two-file input
(all hypotheses discharged by evaluation). -/
theorem parseAllErrorLogs_budget_witness :
    (∀ e ∈ [(⟨some 1, "a", "", "info", "", ["uncategorized"], none, none⟩ : LogEvent)],
        e.pod = "a") ∧
    (∀ l ∈ ([] : List (List LogEvent)) ++
        [[(⟨some 2, "b", "", "info", "", ["uncategorized"], none, none⟩ : LogEvent)]],
      ∀ e ∈ l, e.pod ≠ "a") ∧
    ((parseAllErrorLogs ([] ++
        [(⟨some 1, "a", "", "info", "", ["uncategorized"], none, none⟩ : LogEvent)] ::
        [[(⟨some 2, "b", "", "info", "", ["uncategorized"], none, none⟩ : LogEvent)]])).1.length ≤
          MAX_EVENTS ∧
      List.Pairwise (fun a b => jsNum a.timestamp ≤ jsNum b.timestamp)
        (parseAllErrorLogs ([] ++
          [(⟨some 1, "a", "", "info", "", ["uncategorized"], none, none⟩ : LogEvent)] ::
          [[(⟨some 2, "b", "", "info", "", ["uncategorized"], none, none⟩ : LogEvent)]])).1 ∧
      min [(⟨some 1, "a", "", "info", "", ["uncategorized"], none, none⟩ : LogEvent)].length
          (minPerFile (([] : List (List LogEvent)) ++
            [(⟨some 1, "a", "", "info", "", ["uncategorized"], none, none⟩ : LogEvent)] ::
            [[(⟨some 2, "b", "", "info", "", ["uncategorized"], none, none⟩ : LogEvent)]]).length) ≤
        (parseAllErrorLogs ([] ++
          [(⟨some 1, "a", "", "info", "", ["uncategorized"], none, none⟩ : LogEvent)] ::
          [[(⟨some 2, "b", "", "info", "", ["uncategorized"], none, none⟩ : LogEvent)]])).1.countP
          (fun e => e.pod == "a")) :=
  ⟨by decide, by decide,
    parseAllErrorLogs_budget []
      [[(⟨some 2, "b", "", "info", "", ["uncategorized"], none, none⟩ : LogEvent)]]
      [(⟨some 1, "a", "", "info", "", ["uncategorized"], none, none⟩ : LogEvent)] "a"
      (by decide) (by decide)⟩

/-- Unfolding of the budgeter on a two-file archive whose total exceeds
the cap, in terms of the two allocations. -/
theorem parseAllErrorLogs_two (l1 l2 : List LogEvent) (a1 a2 : Nat)
    (h : ¬ (l1.length + (l2.length + 0) ≤ MAX_EVENTS))
    (ha : computeAllocations [l1.length, l2.length] = [a1, a2]) :
    (parseAllErrorLogs [l1, l2]).1 =
      (sampleEvents l1 (min a1 l1.length) ++
        (sampleEvents l2 (min a2 l2.length) ++ [])).mergeSort tsLe := by
  simp only [parseAllErrorLogs, List.map_cons, List.map_nil, List.sum_cons,
    List.sum_nil, ha, List.zip_cons_cons, List.zip_nil_right, List.flatten_cons,
    List.flatten_nil]
  rw [if_neg h]

/-- Claim C1 counterexample: two files with 10000 and 290000 events and
the fixed cap 200000 (`< 10000 + 290000`).  The claim's guaranteed
minimum for file 1 is `min(10000, floor(200000/2)) = 10000`, but the code
allocates `min(10000,5000) = 5000` in the first pass plus
`floor(5000/290000 * 190000) = 3275` proportional events, so file 1
contributes only 8275 events. -/
theorem parseAllErrorLogs_min_guarantee_fails :
    (parseAllErrorLogs [mkEvents "a" 10000, mkEvents "b" 290000]).1.countP
        (fun e => e.pod == "a") = 8275 ∧
    8275 < min (mkEvents "a" 10000).length
        (MAX_EVENTS / ([mkEvents "a" 10000, mkEvents "b" 290000] :
          List (List LogEvent)).length) := by
  have hA : (mkEvents "a" 10000).length = 10000 := length_mkEvents _ _
  have hB : (mkEvents "b" 290000).length = 290000 := length_mkEvents _ _
  constructor
  · have halloc : computeAllocations
        [(mkEvents "a" 10000).length, (mkEvents "b" 290000).length] =
        [8275, 191724] := by
      rw [hA, hB]
      decide
    have hcond : ¬ ((mkEvents "a" 10000).length +
        ((mkEvents "b" 290000).length + 0) ≤ MAX_EVENTS) := by
      rw [hA, hB]
      decide
    rw [parseAllErrorLogs_two _ _ _ _ hcond halloc, hA, hB]
    have hmin1 : min (8275 : Nat) 10000 = 8275 := by decide
    have hmin2 : min (191724 : Nat) 290000 = 191724 := by decide
    rw [hmin1, hmin2, List.Perm.countP_eq _ (List.mergeSort_perm _ _),
      List.countP_append, List.countP_append]
    have h1 : (sampleEvents (mkEvents "a" 10000) 8275).countP
        (fun e => e.pod == "a") = min (mkEvents "a" 10000).length 8275 :=
      countP_sampleEvents_all _ _ _ (by
        intro y hy
        simp [pod_mkEvents y hy])
    have h2 : (sampleEvents (mkEvents "b" 290000) 191724).countP
        (fun e => e.pod == "a") = 0 :=
      countP_sampleEvents_none _ _ _ (by
        intro y hy
        simp [pod_mkEvents y hy])
    rw [h1, h2, hA, List.countP_nil]
    decide
  · rw [hA]
    decide

/-- Claim C2 (code bug): the stride sampler never keeps the last event of
a file it samples down, although the source comment (error-log-parser.js:
240, "always include first and last, stride the middle") and the spec
promise it.  Two files of 150000 events each exceed the 200000 cap; each
is allocated 100000 events, and file `a`'s last event (index 149999) is
absent from the combined output, while the file does contribute its
100000 sampled events. -/
theorem parseAllErrorLogs_drops_last_event :
    (⟨some (Int.ofNat 149999), "a", "", "info", "", ["uncategorized"], none, none⟩ :
        LogEvent) ∈ mkEvents "a" 150000 ∧
    (⟨some (Int.ofNat 149999), "a", "", "info", "", ["uncategorized"], none, none⟩ :
        LogEvent) ∉
      (parseAllErrorLogs [mkEvents "a" 150000, mkEvents "b" 150000]).1 ∧
    (parseAllErrorLogs [mkEvents "a" 150000, mkEvents "b" 150000]).1.countP
        (fun e => e.pod == "a") = 100000 := by
  have hA : (mkEvents "a" 150000).length = 150000 := length_mkEvents _ _
  have hB : (mkEvents "b" 150000).length = 150000 := length_mkEvents _ _
  have halloc : computeAllocations
      [(mkEvents "a" 150000).length, (mkEvents "b" 150000).length] =
      [100000, 100000] := by
    rw [hA, hB]
    decide
  have hcond : ¬ ((mkEvents "a" 150000).length +
      ((mkEvents "b" 150000).length + 0) ≤ MAX_EVENTS) := by
    rw [hA, hB]
    decide
  have hkey := parseAllErrorLogs_two _ _ _ _ hcond halloc
  have hmin : min (100000 : Nat) 150000 = 100000 := by decide
  refine ⟨?_, ?_, ?_⟩
  · simp only [mkEvents, List.mem_map, List.mem_range]
    exact ⟨149999, by norm_num, rfl⟩
  · rw [hkey, hA, hB, hmin]
    intro hmem
    rw [List.mem_mergeSort] at hmem
    rcases List.mem_append.mp hmem with hmem1 | hmem23
    · have hlt : (100000 : Nat) < (mkEvents "a" 150000).length := by
        rw [hA]
        decide
      obtain ⟨i, hi, heq⟩ := mem_sampleEvents_of_lt hlt hmem1
      rw [hA] at hi
      rw [getD_mkEvents (by omega : i < 150000)] at heq
      have hts : Int.ofNat 149999 = Int.ofNat i := by
        have := congrArg LogEvent.timestamp heq
        simpa using this
      have hieq : i = 149999 := (Int.ofNat.inj hts).symm
      omega
    · rcases List.mem_append.mp hmem23 with hmem2 | hmem3
      · have hx := mem_sampleEvents hmem2
        have hpod := pod_mkEvents _ hx
        exact absurd hpod (by decide)
      · simp at hmem3
  · rw [hkey, hA, hB, hmin, List.Perm.countP_eq _ (List.mergeSort_perm _ _),
      List.countP_append, List.countP_append]
    have h1 : (sampleEvents (mkEvents "a" 150000) 100000).countP
        (fun e => e.pod == "a") = min (mkEvents "a" 150000).length 100000 :=
      countP_sampleEvents_all _ _ _ (by
        intro y hy
        simp [pod_mkEvents y hy])
    have h2 : (sampleEvents (mkEvents "b" 150000) 100000).countP
        (fun e => e.pod == "a") = 0 :=
      countP_sampleEvents_none _ _ _ (by
        intro y hy
        simp [pod_mkEvents y hy])
    rw [h1, h2, hA, List.countP_nil]
    decide

/-! ## The metrics analyzer's scaling-event detection (analyzeMetrics,
metrics-analyzer module, lines 17-60)

Only the fields the scaling-event loop reads are modelled: each
`MetricSnapshot` carries its timestamp and its `DEPLOYMENTS` section rows
(`desired` / `ready` are `parseIntSafe` results, so nullable).  The JS
object map `prevDeployments[d.name] = d` is last-wins, embedded as
`lastByName`; JS `prev.desired !== depl.desired` on the number-or-null
domain is exactly `Option Int` disequality. -/

structure DeploymentReading where
  name : String
  desired : Option Int
  ready : Option Int
deriving DecidableEq

structure MetricSnapshot where
  timestamp : Option Int
  deployments : List DeploymentReading
deriving DecidableEq

structure ScalingEvent where
  timestamp : Option Int
  deployment : String
  fromDesired : Option Int
  toDesired : Option Int
deriving DecidableEq

/-- Last-wins lookup of a deployment name, as built by
`for (const d of snap.deployments) prevDeployments[d.name] = d`. -/
def lastByName (ds : List DeploymentReading) (name : String) :
    Option DeploymentReading :=
  ds.foldl (fun acc d => if d.name = name then some d else acc) none

/-- Events emitted for one snapshot against the previous snapshot's
deployment map (the inner `for (const depl of snap.deployments)` loop). -/
def scalingStep (prev : List DeploymentReading) (snap : MetricSnapshot) :
    List ScalingEvent :=
  snap.deployments.foldl (fun acc d =>
    match lastByName prev d.name with
    | some p =>
      if p.desired ≠ d.desired then
        acc ++ [⟨snap.timestamp, d.name, p.desired, d.desired⟩]
      else acc
    | none => acc) []

/-- Embedding of the scaling-event portion of `analyzeMetrics`: fold over
the snapshots carrying the previous snapshot's deployment list
(`prevDeployments` starts empty and is rebuilt from each snapshot). -/
def analyzeMetricsScalingEvents (snapshots : List MetricSnapshot) :
    List ScalingEvent :=
  (snapshots.foldl
    (fun (st : List DeploymentReading × List ScalingEvent) snap =>
      (snap.deployments, st.2 ++ scalingStep st.1 snap))
    ([], [])).2

/-- Specification-side definition, following the spec's words: a scaling
event is emitted exactly for a deployment appearing in two chronologically
adjacent snapshots with differing `desired` counts; a deployment's first
observation never yields an event.  Adjacent pairs are
`snapshots.zip snapshots.tail`. -/
def scalingEventsSpec (snapshots : List MetricSnapshot) : List ScalingEvent :=
  (snapshots.zip snapshots.tail).flatMap (fun pq =>
    pq.2.deployments.filterMap (fun d =>
      match lastByName pq.1.deployments d.name with
      | some p =>
        if p.desired ≠ d.desired then
          some ⟨pq.2.timestamp, d.name, p.desired, d.desired⟩
        else none
      | none => none))

theorem scalingStep_filterMap (prev : List DeploymentReading)
    (snap : MetricSnapshot) :
    scalingStep prev snap =
      snap.deployments.filterMap (fun d =>
        match lastByName prev d.name with
        | some p =>
          if p.desired ≠ d.desired then
            some ⟨snap.timestamp, d.name, p.desired, d.desired⟩
          else none
        | none => none) := by
  unfold scalingStep
  suffices h : ∀ (ds : List DeploymentReading) (acc : List ScalingEvent),
      ds.foldl (fun acc d =>
        match lastByName prev d.name with
        | some p =>
          if p.desired ≠ d.desired then
            acc ++ [⟨snap.timestamp, d.name, p.desired, d.desired⟩]
          else acc
        | none => acc) acc =
      acc ++ ds.filterMap (fun d =>
        match lastByName prev d.name with
        | some p =>
          if p.desired ≠ d.desired then
            some ⟨snap.timestamp, d.name, p.desired, d.desired⟩
          else none
        | none => none) by
    simpa using h snap.deployments []
  intro ds
  induction ds with
  | nil => intro acc; simp
  | cons d rest ih =>
    intro acc
    simp only [ne_eq, ite_not] at ih
    simp only [List.foldl_cons, List.filterMap_cons, ne_eq, ite_not]
    cases hl : lastByName prev d.name with
    | none => simpa using ih acc
    | some p =>
      by_cases hd : p.desired = d.desired
      · simp [hd, ih]
      · simp [hd, ih]


/-- Helper: the event chain from a given previous-deployment list through
a snapshot sequence. -/
def scalingChain (prev : List DeploymentReading) :
    List MetricSnapshot → List ScalingEvent
  | [] => []
  | snap :: rest => scalingStep prev snap ++ scalingChain snap.deployments rest

theorem scalingEvents_fold (snapshots : List MetricSnapshot) :
    ∀ (prev : List DeploymentReading) (acc : List ScalingEvent),
      (snapshots.foldl
        (fun (st : List DeploymentReading × List ScalingEvent) snap =>
          (snap.deployments, st.2 ++ scalingStep st.1 snap)) (prev, acc)).2 =
      acc ++ scalingChain prev snapshots := by
  induction snapshots with
  | nil => intro prev acc; simp [scalingChain]
  | cons snap rest ih =>
    intro prev acc
    simp only [List.foldl_cons, scalingChain]
    rw [ih]
    simp [List.append_assoc]

theorem scalingChain_eq_spec (rest : List MetricSnapshot) :
    ∀ s : MetricSnapshot,
      scalingChain s.deployments rest = scalingEventsSpec (s :: rest) := by
  induction rest with
  | nil =>
    intro s
    simp [scalingChain, scalingEventsSpec]
  | cons r rr ih =>
    intro s
    simp only [scalingChain, scalingEventsSpec, List.tail_cons,
      List.zip_cons_cons, List.flatMap_cons]
    rw [scalingStep_filterMap]
    apply congrArg
    have := ih r
    simp only [scalingEventsSpec, List.tail_cons] at this
    exact this

/-- Claim C5: the scaling events of `analyzeMetrics` are exactly those the
spec prescribes — one event per deployment row whose name also appears in
the chronologically previous snapshot with a different `desired` count,
never for a first-seen deployment (`scalingEventsSpec` is written from the
spec's words) — and the two-snapshot `api` 2→4 scenario yields exactly one
event `{from: 2, to: 4}`. -/
theorem analyzeMetrics_scalingEvents_spec :
    (∀ snapshots : List MetricSnapshot,
      analyzeMetricsScalingEvents snapshots = scalingEventsSpec snapshots) ∧
    analyzeMetricsScalingEvents
      [⟨some 1, [⟨"api", some 2, some 2⟩]⟩, ⟨some 2, [⟨"api", some 4, some 4⟩]⟩] =
      [⟨some 2, "api", some 2, some 4⟩] := by
  have hmain : ∀ snapshots : List MetricSnapshot,
      analyzeMetricsScalingEvents snapshots = scalingEventsSpec snapshots := by
    intro snapshots
    unfold analyzeMetricsScalingEvents
    rw [scalingEvents_fold]
    simp only [List.nil_append]
    cases snapshots with
    | nil => simp [scalingChain, scalingEventsSpec]
    | cons s rest =>
      have hfirst : scalingStep ([] : List DeploymentReading) s = [] := by
        rw [scalingStep_filterMap]
        refine List.filterMap_eq_nil.mpr (fun d _ => rfl)
      simp only [scalingChain, hfirst, List.nil_append]
      exact scalingChain_eq_spec rest s
  refine ⟨hmain, ?_⟩
  rw [hmain]
  decide

/-! ## The DB analyzer's long-running-query pipeline
(analyzeDbConnections, db-analyzer module, lines 120-132 and 169-177)

Only the long-running-query pipeline is embedded; the pool-usage averages
(`Math.round(x*10)/10` on floats) and alert strings are independent of the
claims.  A connection row carries the fields `parseDbDebug` produces.  The
dedup key is the JS template string `` `${q.db}:${q.query}` `` (with
`null` printed as "null"), and the sort comparator is
`(a, b) => b.duration - a.duration` (descending, stable). -/

structure DbConn where
  id : Int
  user : String
  host : String
  db : Option String
  command : String
  time : Int
  state : Option String
  info : Option String
deriving DecidableEq

structure DbStats where
  total : Nat
  sleeping : Nat
  active : Nat
  byDatabase : String → Nat
  longestConnection : Int

structure DbSnapshot where
  timestamp : Option Int
  connections : List DbConn
  stats : DbStats

structure LongQuery where
  timestamp : Option Int
  id : Int
  user : String
  db : Option String
  duration : Int
  command : String
  query : Option String
deriving DecidableEq

/-- The filter of db-analyzer lines 120-131: elapsed time strictly above
60 seconds and command neither `Sleep` nor `Daemon`; the query text is
`conn.info ? conn.info.substring(0, 200) : null` (an empty string is
falsy, hence also `null`). -/
def collectLongRunning (snapshots : List DbSnapshot) : List LongQuery :=
  snapshots.flatMap (fun snap =>
    snap.connections.filterMap (fun c =>
      if 60 < c.time ∧ c.command ≠ "Sleep" ∧ c.command ≠ "Daemon" then
        some ⟨snap.timestamp, c.id, c.user, c.db, c.time, c.command,
          match c.info with
          | some s => if s = "" then none else some (s.take 200)
          | none => none⟩
      else none))

/-- The JS dedup key `` `${q.db}:${q.query}` ``. -/
def longKey (q : LongQuery) : String :=
  jsStrOfOpt q.db ++ ":" ++ jsStrOfOpt q.query

/-- Descending-duration comparator of `longRunningQueries.sort`. -/
def durationDescLe (a b : LongQuery) : Bool := decide (b.duration ≤ a.duration)

/-- The dedup-and-cap loop of db-analyzer lines 169-175: walk the sorted
list, keep the first occurrence of each key, stop once 20 entries are
kept (the length check runs after a possible push, as in the source). -/
def dedupCap : List LongQuery → List String → List LongQuery → List LongQuery
  | [], _, out => out
  | q :: rest, seen, out =>
    if longKey q ∈ seen then
      if 20 ≤ out.length then out else dedupCap rest seen out
    else
      let out' := out ++ [q]
      if 20 ≤ out'.length then out' else dedupCap rest (longKey q :: seen) out'

/-- Embedding of the `longRunningQueries` output of
`analyzeDbConnections`: filter, sort descending by duration, dedup by
key, cap at 20. -/
def analyzeDbConnectionsLongRunning (snapshots : List DbSnapshot) :
    List LongQuery :=
  dedupCap ((collectLongRunning snapshots).mergeSort durationDescLe) [] []

theorem dedupCap_sublist :
    ∀ (rest : List LongQuery) (seen : List String) (out : List LongQuery),
      ∃ t, dedupCap rest seen out = out ++ t ∧ t.Sublist rest := by
  intro rest
  induction rest with
  | nil => intro seen out; exact ⟨[], by simp [dedupCap], List.nil_sublist _⟩
  | cons q rest ih =>
    intro seen out
    unfold dedupCap
    by_cases hseen : longKey q ∈ seen
    · rw [if_pos hseen]
      by_cases hlen : 20 ≤ out.length
      · exact ⟨[], by simp [hlen], List.nil_sublist _⟩
      · obtain ⟨t, ht, hsub⟩ := ih seen out
        exact ⟨t, by simp [hlen, ht], hsub.cons q⟩
    · rw [if_neg hseen]
      by_cases hlen : 20 ≤ out.length + 1
      · refine ⟨[q], ?_, ?_⟩
        · simp only [List.length_append, List.length_cons, List.length_nil]
          rw [if_pos (by omega)]
        · exact (List.nil_sublist rest).cons₂ q
      · obtain ⟨t, ht, hsub⟩ := ih (longKey q :: seen) (out ++ [q])
        refine ⟨q :: t, ?_, hsub.cons₂ q⟩
        simp only [List.length_append, List.length_cons, List.length_nil]
        rw [if_neg (by omega)]
        rw [ht]
        simp

theorem dedupCap_length :
    ∀ (rest : List LongQuery) (seen : List String) (out : List LongQuery),
      out.length < 20 → (dedupCap rest seen out).length ≤ 20 := by
  intro rest
  induction rest with
  | nil => intro seen out h; simpa [dedupCap] using (by omega : out.length ≤ 20)
  | cons q rest ih =>
    intro seen out h
    unfold dedupCap
    by_cases hseen : longKey q ∈ seen
    · rw [if_pos hseen, if_neg (by omega)]
      exact ih seen out h
    · rw [if_neg hseen]
      by_cases hlen : 20 ≤ (out ++ [q]).length
      · rw [if_pos hlen]
        simp only [List.length_append, List.length_cons, List.length_nil] at hlen ⊢
        omega
      · rw [if_neg hlen]
        apply ih
        simp only [List.length_append, List.length_cons, List.length_nil] at hlen ⊢
        omega

theorem dedupCap_nodup_keys :
    ∀ (rest : List LongQuery) (seen : List String) (out : List LongQuery),
      (∀ q ∈ out, longKey q ∈ seen) →
      out.Pairwise (fun a b => longKey a ≠ longKey b) →
      (dedupCap rest seen out).Pairwise (fun a b => longKey a ≠ longKey b) := by
  intro rest
  induction rest with
  | nil => intro seen out _ hpair; simpa [dedupCap] using hpair
  | cons q rest ih =>
    intro seen out hsub hpair
    unfold dedupCap
    by_cases hseen : longKey q ∈ seen
    · rw [if_pos hseen]
      by_cases hlen : 20 ≤ out.length
      · rw [if_pos hlen]; exact hpair
      · rw [if_neg hlen]; exact ih seen out hsub hpair
    · rw [if_neg hseen]
      have hpair' : (out ++ [q]).Pairwise (fun a b => longKey a ≠ longKey b) := by
        rw [List.pairwise_append]
        refine ⟨hpair, List.pairwise_singleton _ _, ?_⟩
        intro a ha b hb
        rw [List.mem_singleton] at hb
        subst hb
        intro hcon
        exact hseen (hcon ▸ hsub a ha)
      have hsub' : ∀ x ∈ out ++ [q], longKey x ∈ longKey q :: seen := by
        intro x hx
        rcases List.mem_append.mp hx with hx | hx
        · exact List.mem_cons_of_mem _ (hsub x hx)
        · rw [List.mem_singleton] at hx
          subst hx
          exact List.mem_cons_self _ _
      by_cases hlen : 20 ≤ (out ++ [q]).length
      · rw [if_pos hlen]; exact hpair'
      · rw [if_neg hlen]; exact ih _ _ hsub' hpair'

theorem mem_collectLongRunning {q : LongQuery} {snapshots : List DbSnapshot}
    (hq : q ∈ collectLongRunning snapshots) :
    60 < q.duration ∧ q.command ≠ "Sleep" ∧ q.command ≠ "Daemon" := by
  unfold collectLongRunning at hq
  rw [List.mem_flatMap] at hq
  obtain ⟨snap, _, hq⟩ := hq
  rw [List.mem_filterMap] at hq
  obtain ⟨c, _, hc⟩ := hq
  split at hc
  · rename_i hcond
    cases hc
    exact hcond
  · cases hc

/-- Claim C6: for every snapshot list, the `longRunningQueries` list
returned by `analyzeDbConnections` contains only connections with elapsed
time strictly over 60 seconds whose command is neither `Sleep` nor
`Daemon`, has at most 20 entries, has pairwise-distinct
database/query-text pairs, and is sorted by duration descending. -/
theorem analyzeDbConnections_longRunning_spec (snapshots : List DbSnapshot) :
    (∀ q ∈ analyzeDbConnectionsLongRunning snapshots,
      60 < q.duration ∧ q.command ≠ "Sleep" ∧ q.command ≠ "Daemon") ∧
    (analyzeDbConnectionsLongRunning snapshots).length ≤ 20 ∧
    (analyzeDbConnectionsLongRunning snapshots).Pairwise
      (fun a b => a.db ≠ b.db ∨ a.query ≠ b.query) ∧
    (analyzeDbConnectionsLongRunning snapshots).Pairwise
      (fun a b => b.duration ≤ a.duration) := by
  unfold analyzeDbConnectionsLongRunning
  obtain ⟨t, ht, hsub⟩ :=
    dedupCap_sublist ((collectLongRunning snapshots).mergeSort durationDescLe) [] []
  have htrans : ∀ a b c : LongQuery,
      durationDescLe a b → durationDescLe b c → durationDescLe a c := by
    intro a b c hab hbc
    simp only [durationDescLe, decide_eq_true_eq] at *
    omega
  have htotal : ∀ a b : LongQuery, durationDescLe a b || durationDescLe b a := by
    intro a b
    simp only [durationDescLe]
    rcases Int.le_total (jsNum a.timestamp) (jsNum b.timestamp) with h | h <;>
      rcases Int.le_total a.duration b.duration with h2 | h2 <;> simp [h2]
  refine ⟨?_, ?_, ?_, ?_⟩
  · intro q hq
    rw [ht, List.nil_append] at hq
    have hq2 : q ∈ (collectLongRunning snapshots).mergeSort durationDescLe :=
      hsub.mem hq
    rw [List.mem_mergeSort] at hq2
    exact mem_collectLongRunning hq2
  · exact dedupCap_length _ _ _ (by simp)
  · have h := dedupCap_nodup_keys
      ((collectLongRunning snapshots).mergeSort durationDescLe) [] []
      (by simp) (by simp)
    refine h.imp ?_
    intro a b hab
    by_cases hdb : a.db = b.db
    · right
      intro hq
      exact hab (by rw [longKey, longKey, hdb, hq])
    · left
      exact hdb
  · have hsorted : ((collectLongRunning snapshots).mergeSort
        durationDescLe).Pairwise (fun a b => durationDescLe a b) :=
      List.sorted_mergeSort htrans htotal _
    rw [ht, List.nil_append]
    have := hsorted.sublist hsub
    exact this.imp (fun hab => by
      simpa [durationDescLe, decide_eq_true_eq] using hab)

/-! ## The DB-debug (processlist) parser (`parseDbDebug`, db-debug-parser
module)

A raw line is represented by its classification in the source's order:
empty after `trim` (`blank`), matching the date-stamp header regex
`TIMESTAMP_RE` (`stamp`, with its `parseDbTimestamp` result), matching the
column-header regex `HEADER_RE` (`header`), or anything else, carried as
its tab-split fields (`row`).  `parseInt(x, 10) || 0` is embedded by
`jsParseIntOr0`. -/

inductive DbLine where
  | blank
  | stamp (timestamp : Option Int)
  | header
  | row (parts : List String)

/-- JS `parseInt(s, 10)`: trim, optional sign, longest digit prefix,
`NaN` (here `none`) when no digit. -/
def jsParseInt? (s : String) : Option Int :=
  let t := s.trim.toList
  let (sign, rest) :=
    match t with
    | '-' :: cs => ((-1 : Int), cs)
    | '+' :: cs => ((1 : Int), cs)
    | cs => ((1 : Int), cs)
  let digits := rest.takeWhile Char.isDigit
  if digits.isEmpty then none
  else some (sign * Int.ofNat
    (digits.foldl (fun acc c => acc * 10 + (c.toNat - '0'.toNat)) 0))

/-- JS `parseInt(x, 10) || 0` (NaN coerces to 0; a parsed 0 stays 0). -/
def jsParseIntOr0 (s : String) : Int := (jsParseInt? s).getD 0

def emptyDbStats : DbStats := ⟨0, 0, 0, fun _ => 0, 0⟩

/-- The connection-row branch of `parseDbDebug` (parts.length ≥ 5):
build the connection from the tab fields and update the running snapshot
stats exactly as the source does (`Sleep` counts as sleeping, anything
else — including `Daemon` — as active; `byDatabase` bumps only when
`conn.db` is truthy; `longestConnection` tracks the maximum time). -/
def addDbRow (snap : DbSnapshot) (parts : List String) : DbSnapshot :=
  if parts.length ≥ 5 then
    let get := fun i => parts.getD i ""
    let conn : DbConn :=
      { id := jsParseIntOr0 (get 0),
        user := get 1,
        host := get 2,
        db := if get 3 = "NULL" then none else some (get 3),
        command := get 4,
        time := jsParseIntOr0 (get 5),
        state :=
          match parts.get? 6 with
          | some s => if s = "" then none else some s
          | none => none,
        info :=
          match parts.get? 7 with
          | some s => if s = "NULL" then none else some s
          | none => none }
    { snap with
      connections := snap.connections ++ [conn],
      stats :=
        { total := snap.stats.total + 1,
          sleeping :=
            if conn.command = "Sleep" then snap.stats.sleeping + 1
            else snap.stats.sleeping,
          active :=
            if conn.command = "Sleep" then snap.stats.active
            else snap.stats.active + 1,
          byDatabase :=
            match conn.db with
            | some s => if s = "" then snap.stats.byDatabase
                        else bump snap.stats.byDatabase s
            | none => snap.stats.byDatabase,
          longestConnection :=
            if snap.stats.longestConnection < conn.time then conn.time
            else snap.stats.longestConnection } }
  else snap

/-- One loop iteration of `parseDbDebug` over the pre-lexed line,
threading the closed snapshots and the current one. -/
def dbDebugStep (st : List DbSnapshot × Option DbSnapshot) (line : DbLine) :
    List DbSnapshot × Option DbSnapshot :=
  match line with
  | .blank => st
  | .stamp ts =>
    match st.2 with
    | some cur => (st.1 ++ [cur], some ⟨ts, [], emptyDbStats⟩)
    | none => (st.1, some ⟨ts, [], emptyDbStats⟩)
  | .header => st
  | .row parts =>
    match st.2 with
    | some cur => (st.1, some (addDbRow cur parts))
    | none => st

/-- Embedding of `parseDbDebug` over the pre-lexed lines: fold the loop,
then flush the open snapshot at end of file.  (The run-level `stats`
object of the source is derived data not touched by the claims.) -/
def parseDbDebug (lines : List DbLine) : List DbSnapshot :=
  let st := lines.foldl dbDebugStep ([], none)
  match st.2 with
  | some cur => st.1 ++ [cur]
  | none => st.1

/-- The C10 invariant for a single snapshot. -/
def dbStatsGood (snap : DbSnapshot) : Prop :=
  snap.stats.total = snap.stats.sleeping + snap.stats.active ∧
  snap.stats.sleeping = snap.connections.countP (fun c => c.command == "Sleep") ∧
  snap.stats.active = snap.connections.countP (fun c => ¬ c.command == "Sleep") ∧
  snap.stats.longestConnection =
    snap.connections.foldl (fun m c => max m c.time) 0

theorem dbStatsGood_empty (ts : Option Int) :
    dbStatsGood ⟨ts, [], emptyDbStats⟩ := by
  refine ⟨rfl, rfl, rfl, rfl⟩

theorem dbStatsGood_addDbRow {snap : DbSnapshot} (h : dbStatsGood snap)
    (parts : List String) : dbStatsGood (addDbRow snap parts) := by
  obtain ⟨h1, h2, h3, h4⟩ := h
  unfold addDbRow
  split
  · refine ⟨?_, ?_, ?_, ?_⟩
    · simp only
      by_cases hcmd : parts[4]?.getD "" = "Sleep" <;> simp [hcmd, h1] <;> omega
    · simp only [List.countP_append]
      by_cases hcmd : parts[4]?.getD "" = "Sleep" <;>
        simp [hcmd, h2, List.countP_cons]
    · simp only [List.countP_append]
      by_cases hcmd : parts[4]?.getD "" = "Sleep" <;>
        simp [hcmd, h3, List.countP_cons]
    · simp only [List.foldl_append, List.foldl_cons, List.foldl_nil]
      rw [← h4]
      rcases Int.lt_or_le snap.stats.longestConnection
          (jsParseIntOr0 (parts.getD 5 "")) with hlt | hle
      · rw [if_pos hlt]
        omega
      · rw [if_neg (by omega)]
        omega
  · exact ⟨h1, h2, h3, h4⟩

theorem parseDbDebug_fold_invariant (lines : List DbLine) :
    ∀ st : List DbSnapshot × Option DbSnapshot,
      (∀ s ∈ st.1, dbStatsGood s) →
      (∀ s, st.2 = some s → dbStatsGood s) →
      (∀ s ∈ (lines.foldl dbDebugStep st).1, dbStatsGood s) ∧
      (∀ s, (lines.foldl dbDebugStep st).2 = some s → dbStatsGood s) := by
  induction lines with
  | nil => intro st h1 h2; exact ⟨h1, h2⟩
  | cons line rest ih =>
    intro st h1 h2
    apply ih
    · intro s hs
      cases line with
      | blank => exact h1 s hs
      | header => exact h1 s hs
      | stamp ts =>
        simp only [dbDebugStep] at hs
        cases hcur : st.2 with
        | some cur =>
          rw [hcur] at hs
          simp only at hs
          rcases List.mem_append.mp hs with hs | hs
          · exact h1 s hs
          · rw [List.mem_singleton] at hs
            subst hs
            exact h2 s hcur
        | none =>
          rw [hcur] at hs
          exact h1 s hs
      | row parts =>
        simp only [dbDebugStep] at hs
        cases hcur : st.2 with
        | some cur => rw [hcur] at hs; exact h1 s hs
        | none => rw [hcur] at hs; exact h1 s hs
    · intro s hs
      cases line with
      | blank => exact h2 s hs
      | header => exact h2 s hs
      | stamp ts =>
        simp only [dbDebugStep] at hs
        cases hcur : st.2 with
        | some cur =>
          rw [hcur] at hs
          simp only [Option.some.injEq] at hs
          subst hs
          exact dbStatsGood_empty ts
        | none =>
          rw [hcur] at hs
          simp only [Option.some.injEq] at hs
          subst hs
          exact dbStatsGood_empty ts
      | row parts =>
        simp only [dbDebugStep] at hs
        cases hcur : st.2 with
        | some cur =>
          rw [hcur] at hs
          simp only [Option.some.injEq] at hs
          subst hs
          exact dbStatsGood_addDbRow (h2 cur hcur) parts
        | none =>
          rw [hcur] at hs
          exact h2 s hs

theorem parseDbDebug_stats_invariant_mem (lines : List DbLine) :
    ∀ snap ∈ parseDbDebug lines,
      snap.stats.total = snap.stats.sleeping + snap.stats.active ∧
      snap.stats.sleeping =
        snap.connections.countP (fun c => c.command == "Sleep") ∧
      snap.stats.active =
        snap.connections.countP (fun c => ¬ c.command == "Sleep") ∧
      snap.stats.longestConnection =
        snap.connections.foldl (fun m c => max m c.time) 0 := by
  intro snap hmem
  have h := parseDbDebug_fold_invariant lines ([], none)
    (by intro s hs; simp at hs) (by intro s hs; simp at hs)
  simp only [parseDbDebug] at hmem
  rcases hcur : (lines.foldl dbDebugStep ([], none)).2 with _ | cur
  · rw [hcur] at hmem
    exact h.1 snap hmem
  · rw [hcur] at hmem
    rcases List.mem_append.mp hmem with hs | hs
    · exact h.1 snap hs
    · rw [List.mem_singleton] at hs
      subst hs
      exact h.2 snap hcur

/-! ## The issue detector (detectIssues, src/lib/analyzers/issue-detector.js)

The inputs are the analyzer outputs the rules read: the classified error
categories, the metrics analysis (scaling events, hot pods, node alerts)
and the DB analysis alerts.  Number formatting via `toLocaleString()` is
embedded as plain `toString` (locale-independent content is irrelevant to
the ordering claims).  The `ISSUE-NNN` ids assigned by `idx++` at each
push are applied positionally by `assignIds`. -/

structure ErrorCategorySummary where
  name : String
  count : Nat
  severity : Nat
  affectedPods : List String
  affectedDeployments : List String
  affectedBots : List String
deriving DecidableEq

structure HotPod where
  deployment : String
  avgCpu : Int
  maxCpu : Int
  dataPoints : Nat
deriving DecidableEq

structure NodeAlert where
  timestamp : Option Int
  node : String
  alertType : String
  value : Int
deriving DecidableEq

structure DbAlert where
  severity : String
  message : String
deriving DecidableEq

structure ErrorAnalysisIn where
  categories : List ErrorCategorySummary
deriving DecidableEq

structure MetricsAnalysisIn where
  scalingEvents : List ScalingEvent
  hotPods : List HotPod
  nodeAlerts : List NodeAlert
deriving DecidableEq

structure DbAnalysisIn where
  alerts : List DbAlert
deriving DecidableEq

structure Issue where
  id : String
  severity : String
  title : String
  description : String
  evidence : List String
  impact : String
  affectedServices : List String
  rootCause : String
  action : String
deriving DecidableEq

/-- JS `[...new Set(arr)]`: first-occurrence-order dedup. -/
def jsSetDedup (l : List String) : List String :=
  l.foldl (fun acc x => if x ∈ acc then acc else acc ++ [x]) []

/-- JS template interpolation of a nullable number. -/
def jsShowOptInt : Option Int → String
  | some n => toString n
  | none => "null"

/-- `String(n).padStart(3, '0')`. -/
def pad3 (n : Nat) : String :=
  let s := toString n
  if s.length ≥ 3 then s else String.mk (List.replicate (3 - s.length) '0') ++ s

/-- Positional assignment of the `ISSUE-NNN` ids (the source increments
`idx` at each `issues.push`). -/
def assignIds (issues : List Issue) : List Issue :=
  issues.enum.map (fun p => { p.2 with id := "ISSUE-" ++ pad3 (p.1 + 1) })

/-- The `catMap` object of issue-detector.js:7-8 (`catMap[c.name] = c`,
last occurrence wins). -/
def lastCatByName (cats : List ErrorCategorySummary) (name : String) :
    Option ErrorCategorySummary :=
  cats.foldl (fun acc c => if c.name = name then some c else acc) none

/-- A `catMap.x && catMap.x.count > t` threshold rule. -/
def catRule (cats : List ErrorCategorySummary) (name : String) (t : Nat)
    (build : ErrorCategorySummary → Issue) : List Issue :=
  match lastCatByName cats name with
  | some c => if t < c.count then [build c] else []
  | none => []

def joinComma (l : List String) : String := String.intercalate ", " l

/-- Emission order of the `detectIssues` rules (issue-detector.js:10-266),
before id assignment and the final severity sort.  Each builder carries
the source's severity and, where the claims can observe them, the
source's title/action texts (numbers via `toString`). -/
def detectIssuesEmitted (ea : ErrorAnalysisIn) (ma : MetricsAnalysisIn)
    (da : DbAnalysisIn) : List Issue :=
  catRule ea.categories "redis_connection" 50 (fun c =>
    { id := "", severity := "critical",
      title := "Redis Connection Failures (" ++ toString c.count ++ " errors)",
      description := "Pods are failing to connect to Redis at 127.0.0.1:6379. This means each pod expects a local Redis sidecar or localhost Redis, but none is running.",
      evidence := (([some (toString c.count ++ " ECONNREFUSED errors on port 6379"),
        some ("Affected deployments: " ++ joinComma c.affectedDeployments),
        some ("Affected pods: " ++ toString c.affectedPods.length),
        if 0 < c.affectedBots.length
        then some ("Affected bots: " ++ toString c.affectedBots.length)
        else none] : List (Option String)).filterMap id),
      impact := "Cache layer is completely down. Every request hits DB directly, increasing latency. Bot flow drafts cannot be cached.",
      affectedServices := c.affectedDeployments,
      rootCause := "Redis sidecar not running or REDIS_HOST misconfigured",
      action := "Check if Redis sidecar container is defined and running. If using remote Redis, update REDIS_HOST env var." }) ++
  catRule ea.categories "rasa_timeout" 10 (fun c =>
    { id := "", severity := "critical",
      title := "Rasa Request Timeouts (" ++ toString c.count ++ " timeouts, " ++
        toString c.affectedBots.length ++ " bots)",
      description := "Rasa server pods are timing out at 400s while processing bot messages. Users of affected bots get no response.",
      evidence := [toString c.count ++ " timeout errors from rasa-server pods",
        "Affected bots: " ++ joinComma c.affectedBots,
        "Affected pods: " ++ joinComma c.affectedPods],
      impact := "Complete conversation failure for affected bots. End users send messages but receive no response.",
      affectedServices := c.affectedDeployments,
      rootCause := "Model loading/retraining blocking message pipeline, or model too large for available resources",
      action := "Check model sizes for affected bots. Investigate if retraining was scheduled during peak hours. Consider dedicated Rasa instances." }) ++
  catRule ea.categories "oom_killed" 0 (fun c =>
    { id := "", severity := "critical",
      title := "OOM Killed Events (" ++ toString c.count ++ " occurrences)",
      description := "Pods are being killed due to out-of-memory conditions.",
      evidence := [toString c.count ++ " OOM events",
        "Affected: " ++ joinComma c.affectedDeployments],
      impact := "Pod restarts cause request failures and potential data loss.",
      affectedServices := c.affectedDeployments,
      rootCause := "Memory limits too low or memory leak in application",
      action := "Increase memory limits or investigate memory usage patterns." }) ++
  catRule ea.categories "crash_restart" 0 (fun c =>
    { id := "", severity := "critical",
      title := "Pod Crash/Restart Events (" ++ toString c.count ++ ")",
      description := "Pods are crash-looping or being repeatedly killed and restarted.",
      evidence := [toString c.count ++ " crash events",
        "Affected: " ++ joinComma c.affectedDeployments],
      impact := "Service intermittently unavailable during restarts.",
      affectedServices := c.affectedDeployments,
      rootCause := "Application crash, resource limits, or startup failure",
      action := "Check pod describe output and container logs for crash reason." }) ++
  (ma.scalingEvents.filterMap (fun evt =>
    if jsNum evt.fromDesired < jsNum evt.toDesired then
      let hot := ma.hotPods.find? (fun p => p.deployment == evt.deployment)
      let issue : Issue :=
        { id := "", severity := "high",
          title := "Auto-Scaling: " ++ evt.deployment ++ " (" ++
            jsShowOptInt evt.fromDesired ++ " -> " ++
            jsShowOptInt evt.toDesired ++ " replicas)",
          description := "The deployment scaled up under load. " ++
            (match hot with
             | some h => "Peak CPU: " ++ toString h.maxCpu ++ "m."
             | none => ""),
          evidence := (([some ("Scaled from " ++ jsShowOptInt evt.fromDesired ++
              " to " ++ jsShowOptInt evt.toDesired ++ " replicas"),
            match hot with
            | some h => some ("Max CPU: " ++ toString h.maxCpu ++ "m, Avg CPU: " ++
                toString h.avgCpu ++ "m")
            | none => none] : List (Option String)).filterMap id),
          impact := "Auto-scaling indicates load pressure. Check if root cause is organic traffic or a bug amplifying requests.",
          affectedServices := [evt.deployment],
          rootCause := "CPU/memory pressure from traffic or upstream issues",
          action := "Investigate if scaling is expected. If Redis is down, fixing it may reduce CPU and prevent excessive scaling." }
      some issue
    else none)) ++
  catRule ea.categories "mysql_warning" 20 (fun c =>
    { id := "", severity := "medium",
      title := "MySQL2 Configuration Warnings (" ++ toString c.count ++ ")",
      description := "Invalid options (useUTC, timezone) passed to MySQL2 connections. Currently warnings, will become errors in future versions.",
      evidence := [toString c.count ++ " warnings",
        "Affected: " ++ joinComma c.affectedDeployments],
      impact := "No immediate impact. Future MySQL2 upgrade will break connections.",
      affectedServices := c.affectedDeployments,
      rootCause := "Outdated DB connection configuration",
      action := "Remove useUTC option. Use +05:30 instead of Asia/Kolkata for timezone." }) ++
  catRule ea.categories "nlu_fallback" 50 (fun c =>
    { id := "", severity := "medium",
      title := "NLU Fallback Rate High (" ++ toString c.count ++
        " unrecognized messages)",
      description := "A significant number of user messages are falling back to NLU fallback, meaning the bot cannot understand them.",
      evidence := [toString c.count ++ " fallback events"],
      impact := "Users not getting meaningful bot responses for common phrases.",
      affectedServices := ["rasa-server"],
      rootCause := "Missing training data for common conversational phrases",
      action := "Add training examples for small-talk intents (ok, thanks, bye, etc.)." }) ++
  catRule ea.categories "http_5xx" 10 (fun c =>
    { id := "", severity := "high",
      title := "HTTP 5xx Errors (" ++ toString c.count ++ ")",
      description := "Server-side errors detected in API responses.",
      evidence := [toString c.count ++ " 5xx responses",
        "Affected: " ++ joinComma c.affectedDeployments],
      impact := "API clients receiving server errors.",
      affectedServices := c.affectedDeployments,
      rootCause := "Application bugs or upstream service failures",
      action := "Check application logs for root cause of 5xx responses." }) ++
  catRule ea.categories "connection_reset" 20 (fun c =>
    { id := "", severity := "medium",
      title := "Connection Resets (" ++ toString c.count ++ ")",
      description := "TCP connections being reset or hung up unexpectedly.",
      evidence := [toString c.count ++ " reset events",
        "Affected: " ++ joinComma c.affectedDeployments],
      impact := "Intermittent request failures.",
      affectedServices := c.affectedDeployments,
      rootCause := "Network issues, load balancer timeouts, or upstream service restarts",
      action := "Check network policies, LB idle timeout settings, and upstream service health." }) ++
  catRule ea.categories "slow_query" 5 (fun c =>
    { id := "", severity := "medium",
      title := "Slow Queries Detected (" ++ toString c.count ++ ")",
      description := "Database queries exceeding normal execution time.",
      evidence := [toString c.count ++ " slow query events"],
      impact := "Degraded response times for affected endpoints.",
      affectedServices := c.affectedDeployments,
      rootCause := "Missing indexes, large table scans, or lock contention",
      action := "Review slow query logs, add indexes, optimize queries." }) ++
  catRule ea.categories "kafka_error" 5 (fun c =>
    { id := "", severity := "high",
      title := "Kafka Errors (" ++ toString c.count ++ ")",
      description := "Kafka consumer/producer errors detected.",
      evidence := [toString c.count ++ " Kafka errors",
        "Affected: " ++ joinComma c.affectedDeployments],
      impact := "Message processing delays or data loss.",
      affectedServices := c.affectedDeployments,
      rootCause := "Kafka broker issues or consumer group rebalancing",
      action := "Check Kafka broker health, consumer lag, and partition assignments." }) ++
  catRule ea.categories "lock_failure" 0 (fun c =>
    { id := "", severity := "low",
      title := "Lock Release Failures (" ++ toString c.count ++ ")",
      description := "Distributed lock release failures detected.",
      evidence := [toString c.count ++ " lock failures"],
      impact := "Potential race conditions or stale locks.",
      affectedServices := c.affectedDeployments,
      rootCause := "Lock TTL expired before operation completed",
      action := "Review lock TTL configuration and operation durations." }) ++
  catRule ea.categories "tensorflow_warning" 5 (fun c =>
    { id := "", severity := "low",
      title := "TensorFlow Function Retracing (" ++ toString c.count ++ ")",
      description := "TensorFlow is retracing tf.function calls, which is expensive and indicates potential performance issues.",
      evidence := [toString c.count ++ " retracing warnings"],
      impact := "Slower model inference, increased CPU usage.",
      affectedServices := ["rasa-server"],
      rootCause := "Models with varying input shapes triggering recompilation",
      action := "Investigate model architecture, consider setting reduce_retracing=True." }) ++
  (let highCpuNodes := jsSetDedup
      ((ma.nodeAlerts.filter (fun a => a.alertType == "high_cpu")).map (·.node))
   if 0 < highCpuNodes.length then
     [{ id := "", severity := "high",
        title := "Nodes with High CPU (>80%): " ++ joinComma highCpuNodes,
        description := "One or more cluster nodes are running at >80% CPU utilization.",
        evidence := highCpuNodes.map (fun n => "Node " ++ n ++ " above 80% CPU"),
        impact := "Pod scheduling may be affected. Risk of node-level resource exhaustion.",
        affectedServices := [],
        rootCause := "High workload or insufficient cluster capacity",
        action := "Scale the cluster or redistribute workloads." }]
   else []) ++
  (let highMemNodes := jsSetDedup
      ((ma.nodeAlerts.filter (fun a => a.alertType == "high_memory")).map (·.node))
   if 0 < highMemNodes.length then
     [{ id := "", severity := "high",
        title := "Nodes with High Memory (>80%): " ++ joinComma highMemNodes,
        description := "Cluster nodes running at >80% memory.",
        evidence := highMemNodes.map (fun n => "Node " ++ n ++ " above 80% memory"),
        impact := "Risk of OOM kills and pod evictions.",
        affectedServices := [],
        rootCause := "Memory-heavy workloads or insufficient node sizing",
        action := "Add nodes or increase node instance sizes." }]
   else []) ++
  (da.alerts.map (fun alert =>
    { id := "", severity := alert.severity,
      title := alert.message,
      description := alert.message,
      evidence := [],
      impact := "Database performance or availability may be affected.",
      affectedServices := [],
      rootCause := "Database load or misconfiguration",
      action := "Review DB connection pool settings and query performance." }))

/-- The rank table `severityOrder` of issue-detector.js:268 with its
`?? 4` fallback for unknown severities. -/
def severityRank (s : String) : Nat :=
  if s = "critical" then 0
  else if s = "high" then 1
  else if s = "medium" then 2
  else if s = "low" then 3
  else 4

def rankLe (a b : Issue) : Bool :=
  decide (severityRank a.severity ≤ severityRank b.severity)

/-- Embedding of `detectIssues` (issue-detector.js:3-272): emit the rule
table's issues in order, assign ids, and sort ascending by severity rank
(`issues.sort((a,b) => order[a] - order[b])`; JS `Array.sort` is stable,
embedded as the stable `mergeSort`). -/
def detectIssues (ea : ErrorAnalysisIn) (ma : MetricsAnalysisIn)
    (da : DbAnalysisIn) : List Issue :=
  (assignIds (detectIssuesEmitted ea ma da)).mergeSort rankLe

theorem rankLe_trans : ∀ a b c : Issue, rankLe a b → rankLe b c → rankLe a c := by
  intro a b c hab hbc
  simp only [rankLe, decide_eq_true_eq] at *
  omega

theorem rankLe_total : ∀ a b : Issue, rankLe a b || rankLe b a := by
  intro a b
  simp only [rankLe]
  rcases Nat.le_total (severityRank a.severity) (severityRank b.severity) with h | h <;>
    simp [h]

/-- Stability of the severity sort: the subsequence of issues of any
fixed rank is untouched by `mergeSort` on `rankLe`. -/
theorem mergeSort_rank_filter (l : List Issue) (r : Nat) :
    (l.mergeSort rankLe).filter (fun i => severityRank i.severity == r) =
      l.filter (fun i => severityRank i.severity == r) := by
  set p := fun i : Issue => severityRank i.severity == r with hp
  have hmemp : ∀ x ∈ l.filter p, p x := fun x hx => (List.mem_filter.mp hx).2
  have hc : (l.filter p).Pairwise (fun a b => rankLe a b) := by
    apply List.pairwise_of_forall_mem_list
    intro x hx y hy
    have hxr : severityRank x.severity = r := by
      have := hmemp x hx
      simpa [hp] using this
    have hyr : severityRank y.severity = r := by
      have := hmemp y hy
      simpa [hp] using this
    simp [rankLe, hxr, hyr]
  have hsub : (l.filter p).Sublist l := List.filter_sublist l
  have h1 : (l.filter p).Sublist (l.mergeSort rankLe) :=
    List.sublist_mergeSort rankLe_trans rankLe_total hc hsub
  have h2 : ((l.mergeSort rankLe).filter p).Perm (l.filter p) :=
    (List.mergeSort_perm l rankLe).filter p
  have h3 : (l.filter p).Sublist ((l.mergeSort rankLe).filter p) := by
    have h4 := h1.filter p
    rwa [List.filter_eq_self.mpr hmemp] at h4
  exact (h3.eq_of_length h2.length_eq.symm).symm

/-- Claim C8: for every combination of inputs, the issue list of
`detectIssues` is sorted by severity rank (critical before high before
medium before low, unknown severities last), and within equal rank the
issues keep the order in which the detection rules emitted them: the
rank-r subsequence of the output equals the rank-r subsequence of the
emitted (id-assigned) rule output, for every rank r. -/
theorem detectIssues_sorted_stable (ea : ErrorAnalysisIn)
    (ma : MetricsAnalysisIn) (da : DbAnalysisIn) :
    (detectIssues ea ma da).Pairwise
      (fun a b => severityRank a.severity ≤ severityRank b.severity) ∧
    ∀ r, (detectIssues ea ma da).filter (fun i => severityRank i.severity == r) =
      (assignIds (detectIssuesEmitted ea ma da)).filter
        (fun i => severityRank i.severity == r) := by
  constructor
  · have h := List.sorted_mergeSort rankLe_trans rankLe_total
      (assignIds (detectIssuesEmitted ea ma da))
    exact h.imp (fun hab => by simpa [rankLe, decide_eq_true_eq] using hab)
  · intro r
    exact mergeSort_rank_filter _ r

/-! ## The recommendation engine (generateRecommendations,
src/lib/analyzers/issue-detector.js:277-318) -/

structure Recommendation where
  priority : Nat
  category : String
  action : String
  rationale : String
  effort : String
  impact : String
  relatedIssue : String
deriving DecidableEq

/-- The fixed `severityPriority` table (issue-detector.js:281), with the
`|| 1` fallback for severities outside the table. -/
def severityPriority (s : String) : Nat :=
  if s = "critical" then 10
  else if s = "high" then 7
  else if s = "medium" then 4
  else if s = "low" then 2
  else 1

/-- Embedding of `inferCategory` (issue-detector.js:302-310): keyword
search over the lower-cased title; the `/i` regexes of lower-case literal
alternations become case-insensitive substring tests. -/
def inferCategory (issue : Issue) : String :=
  let title := issue.title.toLower
  if hasAny title ["redis", "kafka", "db", "database", "connection"] then
    "infrastructure"
  else if hasAny title ["config", "mysql2", "timezone"] then "configuration"
  else if hasAny title ["nlu", "fallback", "training"] then "ml-model"
  else if hasAny title ["cpu", "memory", "oom", "scaling"] then "resources"
  else if hasAny title ["5xx", "timeout", "crash"] then "reliability"
  else "general"

/-- Embedding of `inferEffort` (issue-detector.js:312-318). -/
def inferEffort (issue : Issue) : String :=
  let action := issue.action.toLower
  if hasAny action ["check", "verify", "review", "investigate"] then "low"
  else if hasAny action ["update", "change", "increase", "add"] then "medium"
  else if hasAny action ["redesign", "migrate", "refactor"] then "high"
  else "medium"

/-- The per-issue recommendation constructor (the body of the
`for (const issue of issues)` loop, issue-detector.js:283-295):
`issue.action || ...` and `issue.impact || issue.description` treat the
empty string as falsy. -/
def mkRecommendation (issue : Issue) : Recommendation :=
  { priority := severityPriority issue.severity,
    category := inferCategory issue,
    action := if issue.action = "" then "Investigate: " ++ issue.title
              else issue.action,
    rationale := if issue.impact = "" then issue.description else issue.impact,
    effort := inferEffort issue,
    impact := if issue.severity = "critical" ∨ issue.severity = "high" then "high"
              else if issue.severity = "medium" then "medium" else "low",
    relatedIssue := issue.id }

def prioDescLe (a b : Recommendation) : Bool := decide (b.priority ≤ a.priority)

/-- Embedding of `generateRecommendations`: map each issue to its
recommendation, then sort by priority descending
(`(a, b) => b.priority - a.priority`, stable). -/
def generateRecommendations (issues : List Issue) : List Recommendation :=
  (issues.map mkRecommendation).mergeSort prioDescLe

theorem prioDescLe_trans :
    ∀ a b c : Recommendation, prioDescLe a b → prioDescLe b c → prioDescLe a c := by
  intro a b c hab hbc
  simp only [prioDescLe, decide_eq_true_eq] at *
  omega

theorem prioDescLe_total :
    ∀ a b : Recommendation, prioDescLe a b || prioDescLe b a := by
  intro a b
  simp only [prioDescLe]
  rcases Nat.le_total a.priority b.priority with h | h <;> simp [h]

/-- Claim C9: for every issue list whose severities are drawn from the
four documented levels, `generateRecommendations` emits exactly one
recommendation per issue (the output is a permutation of the 1:1 image,
in particular of equal length), every priority comes from the fixed table
{critical 10, high 7, medium 4, low 2}, and the output is sorted by
priority descending. -/
theorem generateRecommendations_spec (issues : List Issue)
    (h : ∀ i ∈ issues, i.severity = "critical" ∨ i.severity = "high" ∨
      i.severity = "medium" ∨ i.severity = "low") :
    (generateRecommendations issues).Perm (issues.map mkRecommendation) ∧
    (generateRecommendations issues).length = issues.length ∧
    (∀ i ∈ issues, (mkRecommendation i).priority = severityPriority i.severity) ∧
    (∀ r ∈ generateRecommendations issues, r.priority ∈ ([10, 7, 4, 2] : List Nat)) ∧
    (generateRecommendations issues).Pairwise (fun a b => b.priority ≤ a.priority) := by
  refine ⟨List.mergeSort_perm _ _, ?_, ?_, ?_, ?_⟩
  · rw [generateRecommendations, List.length_mergeSort, List.length_map]
  · intro i _
    rfl
  · intro r hr
    rw [generateRecommendations, List.mem_mergeSort, List.mem_map] at hr
    obtain ⟨i, hi, rfl⟩ := hr
    rcases h i hi with hs | hs | hs | hs <;>
      simp [mkRecommendation, severityPriority, hs]
  · have hs := List.sorted_mergeSort prioDescLe_trans prioDescLe_total
      (issues.map mkRecommendation)
    exact hs.imp (fun hab => by
      simpa [prioDescLe, decide_eq_true_eq] using hab)

/-- Witness for `generateRecommendations_spec` at a concrete two-issue
input. -/
theorem generateRecommendations_spec_witness :
    (∀ i ∈ [(⟨"ISSUE-001", "medium", "t1", "d1", [], "imp1", [], "rc1", "a1"⟩ : Issue),
            (⟨"ISSUE-002", "critical", "t2", "d2", [], "imp2", [], "rc2", "a2"⟩ : Issue)],
      i.severity = "critical" ∨ i.severity = "high" ∨
        i.severity = "medium" ∨ i.severity = "low") ∧
    ((generateRecommendations
        [(⟨"ISSUE-001", "medium", "t1", "d1", [], "imp1", [], "rc1", "a1"⟩ : Issue),
         (⟨"ISSUE-002", "critical", "t2", "d2", [], "imp2", [], "rc2", "a2"⟩ : Issue)]).Perm
       (([(⟨"ISSUE-001", "medium", "t1", "d1", [], "imp1", [], "rc1", "a1"⟩ : Issue),
          (⟨"ISSUE-002", "critical", "t2", "d2", [], "imp2", [], "rc2", "a2"⟩ : Issue)]).map
         mkRecommendation) ∧
     (generateRecommendations
        [(⟨"ISSUE-001", "medium", "t1", "d1", [], "imp1", [], "rc1", "a1"⟩ : Issue),
         (⟨"ISSUE-002", "critical", "t2", "d2", [], "imp2", [], "rc2", "a2"⟩ : Issue)]).length =
       ([(⟨"ISSUE-001", "medium", "t1", "d1", [], "imp1", [], "rc1", "a1"⟩ : Issue),
         (⟨"ISSUE-002", "critical", "t2", "d2", [], "imp2", [], "rc2", "a2"⟩ : Issue)] :
         List Issue).length ∧
     (∀ i ∈ [(⟨"ISSUE-001", "medium", "t1", "d1", [], "imp1", [], "rc1", "a1"⟩ : Issue),
             (⟨"ISSUE-002", "critical", "t2", "d2", [], "imp2", [], "rc2", "a2"⟩ : Issue)],
       (mkRecommendation i).priority = severityPriority i.severity) ∧
     (∀ r ∈ generateRecommendations
        [(⟨"ISSUE-001", "medium", "t1", "d1", [], "imp1", [], "rc1", "a1"⟩ : Issue),
         (⟨"ISSUE-002", "critical", "t2", "d2", [], "imp2", [], "rc2", "a2"⟩ : Issue)],
       r.priority ∈ ([10, 7, 4, 2] : List Nat)) ∧
     (generateRecommendations
        [(⟨"ISSUE-001", "medium", "t1", "d1", [], "imp1", [], "rc1", "a1"⟩ : Issue),
         (⟨"ISSUE-002", "critical", "t2", "d2", [], "imp2", [], "rc2", "a2"⟩ : Issue)]).Pairwise
       (fun a b => b.priority ≤ a.priority)) :=
  ⟨by decide,
   generateRecommendations_spec
     [(⟨"ISSUE-001", "medium", "t1", "d1", [], "imp1", [], "rc1", "a1"⟩ : Issue),
      (⟨"ISSUE-002", "critical", "t2", "d2", [], "imp2", [], "rc2", "a2"⟩ : Issue)]
     (by decide)⟩

/-- Claim C10: every snapshot produced by `parseDbDebug` satisfies
`total = sleeping + active`, `sleeping` counts exactly the connections
with command `Sleep` (so a `Daemon` connection counts as active), and
`longestConnection` is the running maximum of the connections' elapsed
times starting from 0 (hence 0 when there are none). -/
theorem parseDbDebug_stats_invariant (lines : List DbLine) :
    (parseDbDebug lines).Forall (fun snap =>
      snap.stats.total = snap.stats.sleeping + snap.stats.active ∧
      snap.stats.sleeping =
        snap.connections.countP (fun c => c.command == "Sleep") ∧
      snap.stats.active =
        snap.connections.countP (fun c => ¬ c.command == "Sleep") ∧
      snap.stats.longestConnection =
        snap.connections.foldl (fun m c => max m c.time) 0) := by
  rw [List.forall_iff_forall_mem]
  exact parseDbDebug_stats_invariant_mem lines
